import Mathlib

/- Verification development for the ChumpStreams repository.

   Shallow embedding of the parts of src/chumpstreams_epg.py,
   src/api_client.py and src/chumpstreams_favorites.py that the checked
   claims are about.  Python str values are modelled as Lean String (or
   List Char where character-level operations matter), integer Unix
   timestamps as Nat, and floating-point clock readings as Rat.  Python
   dicts that the code iterates or mutates are modelled as association
   lists in insertion order, matching the iteration order of Python dicts. -/

namespace ChumpStreams

/-- XMLTV program entry as built by EPGManager._parse_xmltv
(chumpstreams_epg.py lines 220-228).  start and stop hold the formatted
time strings, start_timestamp and stop_timestamp the integer Unix
timestamps produced by int(datetime.strptime(...).timestamp()). -/
structure Program where
  start : String
  start_timestamp : Nat
  stop : String
  stop_timestamp : Nat
  title : Option String
  description : Option String
  category : Option String
deriving DecidableEq, Repr

/-- Channel entry as built by EPGManager._parse_xmltv (chumpstreams_epg.py
lines 203-207).  The name key is always stored, but findtext returns None
when the channel element has no display-name child, so the stored value
is modelled as Option String with none for a stored None. -/
structure ChannelInfo where
  id : String
  name : Option String
  icon : Option String
deriving DecidableEq, Repr

/-- The dict {"channels": ..., "programs": ...} produced by
EPGManager._parse_xmltv (chumpstreams_epg.py lines 239-242). -/
structure EPGData where
  channels : List (String × ChannelInfo)
  programs : List (String × List Program)
deriving DecidableEq, Repr

/-- The state of an EPGManager instance (chumpstreams_epg.py lines 42-47)
restricted to the fields the query and cache logic reads.  epg_cache is
none when the cache dict is empty ({} is falsy in Python) and some d once
it has been populated. -/
structure EPGManager where
  channels : List (String × ChannelInfo)
  programs : List (String × List Program)
  channel_mappings : List (String × String)
  epg_cache : Option EPGData
  epg_cache_time : ℚ
deriving DecidableEq

/-- EPGManager.get_channel_epg (chumpstreams_epg.py lines 317-342) at a
fixed query time t (the value int(datetime.now().timestamp())); the
window end int((now + timedelta(hours=hours)).timestamp()) equals
t + hours * 3600. -/
def getChannelEpg (m : EPGManager) (epg_channel_id : String) (t : Nat)
    (hours : Nat) : List Program :=
  if epg_channel_id = "" then []
  else
    match m.programs.lookup epg_channel_id with
    | none => []
    | some channel_programs =>
        channel_programs.filter (fun prog =>
          prog.start_timestamp ≤ t + hours * 3600 && t ≤ prog.stop_timestamp)

/-- EPGManager.get_current_program (chumpstreams_epg.py lines 437-453) at a
fixed query time t. -/
def getCurrentProgram (m : EPGManager) (epg_channel_id : String) (t : Nat) :
    Option Program :=
  if epg_channel_id = "" then none
  else
    let programs := getChannelEpg m epg_channel_id t 1
    if programs = [] then none
    else
      programs.find? (fun prog =>
        prog.start_timestamp ≤ t && t ≤ prog.stop_timestamp)

/-- EPGManager.get_next_program (chumpstreams_epg.py lines 455-471) at a
fixed query time t. -/
def getNextProgram (m : EPGManager) (epg_channel_id : String) (t : Nat) :
    Option Program :=
  if epg_channel_id = "" then none
  else
    let programs := getChannelEpg m epg_channel_id t 12
    if programs = [] then none
    else programs.find? (fun prog => t < prog.start_timestamp)

/-- Python str.lower applied characterwise (ASCII names). -/
def lowerS (s : List Char) : List Char := s.map Char.toLower

/-- Python substring test needle in hay for strings. -/
def inStr : List Char → List Char → Bool
  | needle, [] => needle.isEmpty
  | needle, c :: rest => needle.isPrefixOf (c :: rest) || inStr needle rest

/-- The prefix list of EPGManager.map_stream_to_epg (chumpstreams_epg.py
line 388). -/
def prefixesToRemove : List (List Char) :=
  [String.toList "uk ", String.toList "us ", String.toList "hd ",
   String.toList "fhd ", String.toList "uhd ", String.toList "4k "]

/-- The suffix list of EPGManager.map_stream_to_epg (chumpstreams_epg.py
line 393). -/
def suffixesToRemove : List (List Char) :=
  [String.toList " hd", String.toList " fhd", String.toList " uhd",
   String.toList " 4k", String.toList " tv", String.toList " channel"]

/-- The sequential prefix-stripping loop of map_stream_to_epg
(chumpstreams_epg.py lines 389-391 and 407-409). -/
def stripPrefixes (s : List Char) : List Char :=
  prefixesToRemove.foldl
    (fun cur p => if p.isPrefixOf cur then cur.drop p.length else cur) s

/-- The sequential suffix-stripping loop of map_stream_to_epg
(chumpstreams_epg.py lines 394-396 and 411-413). -/
def stripSuffixes (s : List Char) : List Char :=
  suffixesToRemove.foldl
    (fun cur suf =>
      if suf.isSuffixOf cur then cur.take (cur.length - suf.length) else cur) s

/-- Cleaning of an already lowercased name: strip the fixed prefixes, then
the fixed suffixes (chumpstreams_epg.py lines 385-396). -/
def cleanName (s : List Char) : List Char := stripSuffixes (stripPrefixes s)

/-- The common-character similarity score of map_stream_to_epg
(chumpstreams_epg.py lines 423-424):
sum(1 for c in stream_name_clean if c in channel_name_clean) divided by
max(len(stream_name_clean), len(channel_name_clean)). -/
def matchScore (sClean cClean : List Char) : ℚ :=
  (sClean.countP (fun c => cClean.contains c) : ℚ) /
    ((max sClean.length cClean.length : Nat) : ℚ)

/-- The exact case-insensitive matching loop of map_stream_to_epg
(chumpstreams_epg.py lines 378-382): the first channel whose truthy
display name equals the stream name case-insensitively.  The guard
channel_name and channel_name.lower() == ... short-circuits, so a stored
None or empty name is skipped without being lowercased. -/
def findExactMatch (stream_name : String) :
    List (String × ChannelInfo) → Option String
  | [] => none
  | (channel_id, ch) :: rest =>
      match ch.name with
      | none => findExactMatch stream_name rest
      | some nm =>
          if nm ≠ "" ∧ lowerS nm.toList = lowerS stream_name.toList then
            some channel_id
          else findExactMatch stream_name rest

/-- The cleaned-name matching loop of map_stream_to_epg
(chumpstreams_epg.py lines 402-428).  The outer Option models exceptions:
channel.get(name, ).lower() at line 403 raises AttributeError when the
stored display name is None (the dict.get default only covers an absent
key), aborting the call, hence the result none.  A normal loop exit
yields some best; a cleaned-name equality returns that id immediately
(some (some id)), bypassing the later truthiness check; a containment
match whose score exceeds both the current best score and 0.5 becomes
the new best. -/
def matchLoop (sClean : List Char) :
    List (String × ChannelInfo) → Option String → ℚ → Option (Option String)
  | [], best, _ => some best
  | (channel_id, ch) :: rest, best, bestScore =>
      match ch.name with
      | none => none
      | some nm =>
          let cClean := cleanName (lowerS nm.toList)
          if sClean = cClean then some (some channel_id)
          else if inStr sClean cClean || inStr cClean sClean then
            let score := matchScore sClean cClean
            if bestScore < score ∧ (1 : ℚ) / 2 < score then
              matchLoop sClean rest (some channel_id) score
            else matchLoop sClean rest best bestScore
          else matchLoop sClean rest best bestScore

/-- EPGManager.map_stream_to_epg (chumpstreams_epg.py lines 361-435):
user mapping first, then exact case-insensitive display-name match, then
the cleaned-name loop started with best = None and best score 0,
followed by the final truthiness check if best_match: (line 430), under
which a falsy best (None or an empty id) yields a None return.  The
outer Option models exceptions: none is the AttributeError escaping from
the loop (see matchLoop), some r a normal return of r. -/
def mapStreamToEpg (m : EPGManager) (stream_name : String) :
    Option (Option String) :=
  if stream_name = "" then some none
  else
    match m.channel_mappings.lookup stream_name with
    | some mapped_id => some (some mapped_id)
    | none =>
        match findExactMatch stream_name m.channels with
        | some channel_id => some (some channel_id)
        | none =>
            match matchLoop (cleanName (lowerS stream_name.toList))
                m.channels none 0 with
            | none => none
            | some (some best) =>
                if best = "" then some none else some (some best)
            | some none => some none

/-- Parsed content of the EPG cache file written by
EPGManager._save_epg_to_cache_file (chumpstreams_epg.py lines 65-80):
a JSON object {"timestamp": ..., "epg_data": ...}.  epg_data is none when
the stored dict is empty (a falsy {} in Python, as saved after a failed
parse) or the key is missing. -/
structure EPGFileCache where
  timestamp : ℚ
  epg_data : Option EPGData
deriving DecidableEq

/-- The external world of fetch_epg_data: the cache file on disk (none =
missing or unreadable, both of which make _load_epg_from_cache_file return
None) and the value that _fetch_epg_from_server would produce. -/
structure EPGEnv where
  file : Option EPGFileCache
  server_data : Option EPGData
deriving DecidableEq

/-- Which tier of fetch_epg_data produced the returned value: the
in-memory cache (no file read, no network), the cache file, or a network
fetch via _fetch_epg_from_server. -/
inductive FetchSource where
  | memory
  | fileCache
  | server
deriving DecidableEq, Repr

/-- EPGManager._load_epg_from_cache_file (chumpstreams_epg.py lines
82-114) at fixed time t, reduced to the returned value: none when the
file is missing/unreadable or stale (t - timestamp not below 86400),
otherwise some of the stored epg_data (which fetch_epg_data then tests
for truthiness). -/
def loadEpgFromCacheFile (env : EPGEnv) (t : ℚ) : Option (Option EPGData) :=
  match env.file with
  | none => none
  | some fc =>
      if t - fc.timestamp < 86400 then some fc.epg_data else none

/-- EPGManager.fetch_epg_data (chumpstreams_epg.py lines 116-135) at fixed
time t, returning which tier answered together with the returned value.
The test "if self.epg_cache and ..." is the Python truthiness of the
cache dict, i.e. isSome here; the test "if cached_data:" on the file
result is the truthiness of the loaded epg_data dict. -/
def fetchEpgData (m : EPGManager) (env : EPGEnv) (t : ℚ)
    (force_refresh : Bool) : FetchSource × Option EPGData :=
  if force_refresh then (FetchSource.server, env.server_data)
  else if m.epg_cache.isSome ∧ t - m.epg_cache_time < 3600 then
    (FetchSource.memory, m.epg_cache)
  else
    match loadEpgFromCacheFile env t with
    | some (some cached) => (FetchSource.fileCache, some cached)
    | _ => (FetchSource.server, env.server_data)

/-- ApiClient.request_delay (api_client.py line 35). -/
def requestDelay : ℚ := 1 / 2

/-- The sleep performed by ApiClient._wait_for_rate_limit (api_client.py
lines 330-335) when the first clock reading is c1 and the previously
recorded request time is last: request_delay minus the elapsed time when
less than request_delay has elapsed, otherwise no sleep. -/
def rateLimitSleep (last c1 : ℚ) : ℚ :=
  if c1 - last < requestDelay then requestDelay - (c1 - last) else 0

/-- The new last_request_time recorded by _wait_for_rate_limit
(api_client.py line 337): the clock reading taken after the sleep.  The
clock model: time.sleep(s) suspends for at least s, and the clock is
monotone, so the post-sleep reading is c1 + rateLimitSleep last c1 + d
for some overshoot d ≥ 0. -/
def waitForRateLimit (last c1 d : ℚ) : ℚ :=
  c1 + rateLimitSleep last c1 + d

/-- ApiClient state (api_client.py lines 23-35) restricted to the fields
the playback-URL builders read. -/
structure ApiClient where
  base_url : String
  username : String
  password : String
  logged_in : Bool
deriving DecidableEq, Repr

/-- ApiClient.__init__ (api_client.py lines 23-35): base_url becomes
protocol://host:port with port 443 for HTTPS and 80 for HTTP. -/
def mkApiClient (host : String) (use_https : Bool)
    (username password : String) : ApiClient :=
  let protocol := if use_https then "https" else "http"
  let port := if use_https then "443" else "80"
  { base_url := protocol ++ "://" ++ host ++ ":" ++ port
    username := username
    password := password
    logged_in := false }

/-- ApiClient.get_live_stream_url (api_client.py lines 237-242). -/
def getLiveStreamUrl (c : ApiClient) (stream_id : String) : Option String :=
  if !c.logged_in then none
  else
    some (c.base_url ++ "/live/" ++ c.username ++ "/" ++ c.password ++ "/" ++
      stream_id ++ ".ts")

/-- Python "extension or mp4" (api_client.py lines 250 and 259): the
default is used when extension is None or empty. -/
def extOrMp4 : Option String → String
  | none => "mp4"
  | some e => if e = "" then "mp4" else e

/-- ApiClient.get_vod_stream_url (api_client.py lines 244-251). -/
def getVodStreamUrl (c : ApiClient) (stream_id : String)
    (extension : Option String) : Option String :=
  if !c.logged_in then none
  else
    some (c.base_url ++ "/movie/" ++ c.username ++ "/" ++ c.password ++ "/" ++
      stream_id ++ "." ++ extOrMp4 extension)

/-- ApiClient.get_series_stream_url (api_client.py lines 253-260). -/
def getSeriesStreamUrl (c : ApiClient) (stream_id : String)
    (extension : Option String) : Option String :=
  if !c.logged_in then none
  else
    some (c.base_url ++ "/series/" ++ c.username ++ "/" ++ c.password ++ "/" ++
      stream_id ++ "." ++ extOrMp4 extension)

/-- JSON-ish scalar value stored in a favorite item field (vendor IDs are
ints or strings; None may be stored explicitly). -/
inductive PyVal where
  | pnone
  | pstr (s : String)
  | pint (n : Int)
deriving DecidableEq, Repr

/-- Python truthiness of a PyVal. -/
def PyVal.truthy : PyVal → Bool
  | .pnone => false
  | .pstr s => s ≠ ""
  | .pint n => n ≠ 0

/-- A content item handed to FavoritesManager, restricted to the keys the
manager reads.  A field is none when the key is absent, and some .pnone
when the key is present with value None (dict.get distinguishes the
two). -/
structure FavItem where
  stream_id : Option PyVal
  vod_id : Option PyVal
  series_id : Option PyVal
  id : Option PyVal
  name : Option PyVal
  title : Option PyVal
  container_extension : Option PyVal
  stream_url : Option PyVal
deriving DecidableEq, Repr

/-- The item dict {} used as default by favorite.get(item, {})
(chumpstreams_favorites.py lines 178, 194, 210). -/
def emptyFavItem : FavItem :=
  { stream_id := none, vod_id := none, series_id := none, id := none,
    name := none, title := none, container_extension := none,
    stream_url := none }

/-- A favorites-list entry.  Entries built by add_favorite always carry
type, label and item; entries loaded from an old config file may not,
hence the Option fields (matching favorite.get with defaults). -/
structure Favorite where
  ftype : Option PyVal
  label : Option PyVal
  item : Option FavItem
  stream_url : Option PyVal
deriving DecidableEq, Repr

/-- Python item.get(stream_id, item.get(vod_id)) as used by
_find_favorite_index (chumpstreams_favorites.py lines 170 and 179). -/
def liveVodIdOf (it : FavItem) : PyVal :=
  it.stream_id.getD (it.vod_id.getD PyVal.pnone)

/-- The index-search loop of _find_favorite_index for live/vod
(chumpstreams_favorites.py lines 174-182): skip entries of a different
type, return the first index whose item has a truthy matching id. -/
def findLiveVodIdx (content_type : String) (item_id : PyVal) :
    List Favorite → Nat → Int
  | [], _ => -1
  | fav :: rest, i =>
      if fav.ftype.getD PyVal.pnone ≠ PyVal.pstr content_type then
        findLiveVodIdx content_type item_id rest (i + 1)
      else
        let fav_id := liveVodIdOf (fav.item.getD emptyFavItem)
        if fav_id.truthy ∧ fav_id = item_id then (i : Int)
        else findLiveVodIdx content_type item_id rest (i + 1)

/-- The index-search loop of _find_favorite_index for series/full_series
(chumpstreams_favorites.py lines 190-198). -/
def findSeriesIdx (series_id : PyVal) : List Favorite → Nat → Int
  | [], _ => -1
  | fav :: rest, i =>
      if fav.ftype.getD PyVal.pnone ≠ PyVal.pstr "series" ∧
          fav.ftype.getD PyVal.pnone ≠ PyVal.pstr "full_series" then
        findSeriesIdx series_id rest (i + 1)
      else
        let fav_id := (fav.item.getD emptyFavItem).series_id.getD PyVal.pnone
        if fav_id.truthy ∧ fav_id = series_id then (i : Int)
        else findSeriesIdx series_id rest (i + 1)

/-- The index-search loop of _find_favorite_index for episodes
(chumpstreams_favorites.py lines 206-214). -/
def findEpisodeIdx (episode_id : PyVal) : List Favorite → Nat → Int
  | [], _ => -1
  | fav :: rest, i =>
      if fav.ftype.getD PyVal.pnone ≠ PyVal.pstr "episode" then
        findEpisodeIdx episode_id rest (i + 1)
      else
        let fav_id := (fav.item.getD emptyFavItem).id.getD PyVal.pnone
        if fav_id.truthy ∧ fav_id = episode_id then (i : Int)
        else findEpisodeIdx episode_id rest (i + 1)

/-- FavoritesManager._find_favorite_index (chumpstreams_favorites.py lines
166-216). -/
def findFavoriteIndex (favorites : List Favorite) (item : FavItem)
    (content_type : String) : Int :=
  if content_type = "live" ∨ content_type = "vod" then
    let item_id := liveVodIdOf item
    if !item_id.truthy then -1
    else findLiveVodIdx content_type item_id favorites 0
  else if content_type = "series" ∨ content_type = "full_series" then
    let series_id := item.series_id.getD PyVal.pnone
    if !series_id.truthy then -1
    else findSeriesIdx series_id favorites 0
  else if content_type = "episode" then
    let episode_id := item.id.getD PyVal.pnone
    if !episode_id.truthy then -1
    else findEpisodeIdx episode_id favorites 0
  else -1

/-- FavoritesManager.is_favorite (chumpstreams_favorites.py lines
218-220). -/
def isFavorite (favorites : List Favorite) (item : FavItem)
    (content_type : String) : Bool :=
  0 ≤ findFavoriteIndex favorites item content_type

/-- item_copy.get(name, item_copy.get(title, Unknown)) as used for the
label (chumpstreams_favorites.py line 120). -/
def favLabel (it : FavItem) : PyVal :=
  it.name.getD (it.title.getD (PyVal.pstr "Unknown"))

/-- FavoritesManager.add_favorite (chumpstreams_favorites.py lines
88-138), file saving omitted.  streamUrl is the stream URL computed by
the api block (lines 94-115): none when the api is unset, the item has no
usable id, or the URL builder returned None; when present it is written
into the item copy and the favorite entry as _stream_url. -/
def addFavorite (favorites : List Favorite) (item : FavItem)
    (content_type : String) (streamUrl : Option String) : List Favorite :=
  let item_copy :=
    match streamUrl with
    | some u => { item with stream_url := some (PyVal.pstr u) }
    | none => item
  let favorite : Favorite :=
    { ftype := some (PyVal.pstr content_type)
      label := some (favLabel item_copy)
      item := some item_copy
      stream_url := item_copy.stream_url }
  if 0 ≤ findFavoriteIndex favorites item_copy content_type then favorites
  else favorites ++ [favorite]

/-- FavoritesManager.remove_favorite_by_index (chumpstreams_favorites.py
lines 147-164): the returned Bool, the resulting favorites list, and
whether _save_favorites (a config-file write) was invoked. -/
def removeFavoriteByIndex (favorites : List Favorite) (index : Int) :
    Bool × List Favorite × Bool :=
  if index < 0 ∨ (favorites.length : Int) ≤ index then
    (false, favorites, false)
  else (true, favorites.eraseIdx index.toNat, true)

/-- A channel element of an XMLTV document as read by _parse_xmltv
(chumpstreams_epg.py lines 197-208): its id attribute, display-name text
(None when the element has no display-name child) and optional icon
src. -/
structure ChannelElem where
  id : String
  display_name : Option String
  icon : Option String
deriving DecidableEq, Repr

/-- A programme element of an XMLTV document as read by _parse_xmltv
(chumpstreams_epg.py lines 211-217).  start and stop are the raw
attribute strings; "" models a missing attribute (program.get returning
None, which _parse_xmltv_time maps to ""). -/
structure ProgrammeElem where
  channel : String
  start : String
  stop : String
  title : Option String
  desc : Option String
  category : Option String
deriving DecidableEq, Repr

/-- An XMLTV document: the channel elements and programme elements in
document order. -/
structure XmltvDoc where
  channels : List ChannelElem
  programmes : List ProgrammeElem
deriving DecidableEq, Repr

/-- Python dict insertion: an existing key keeps its position and gets the
new value, a new key is appended. -/
def dictInsert {α : Type} (k : String) (v : α) :
    List (String × α) → List (String × α)
  | [] => [(k, v)]
  | (k2, v2) :: rest =>
      if k2 = k then (k, v) :: rest else (k2, v2) :: dictInsert k v rest

/-- The channel pass of _parse_xmltv (chumpstreams_epg.py lines 197-208):
build the channels dict and an empty program list per declared channel. -/
def parseChannels (elems : List ChannelElem) :
    List (String × ChannelInfo) × List (String × List Program) :=
  elems.foldl
    (fun acc ce =>
      (dictInsert ce.id
        { id := ce.id, name := ce.display_name, icon := ce.icon } acc.1,
       dictInsert ce.id [] acc.2))
    ([], [])

/-- The program record built for one programme element (chumpstreams_epg.py
lines 213-228).  norm abstracts _parse_xmltv_time on a non-empty string
(which never raises and never returns ""); strpt abstracts
int(datetime.strptime(s, "%Y-%m-%d %H:%M:%S").timestamp()), with none
meaning strptime raised (which aborts the whole parse). -/
def mkProgram (norm : String → String) (strpt : String → Option Nat)
    (pe : ProgrammeElem) : Option Program :=
  let start_time := if pe.start = "" then "" else norm pe.start
  let stop_time := if pe.stop = "" then "" else norm pe.stop
  match (if start_time = "" then some 0 else strpt start_time),
      (if stop_time = "" then some 0 else strpt stop_time) with
  | some st, some sp =>
      some { start := start_time, start_timestamp := st, stop := stop_time,
             stop_timestamp := sp, title := pe.title,
             description := pe.desc, category := pe.category }
  | _, _ => none

/-- The programme pass of _parse_xmltv (chumpstreams_epg.py lines
211-228): a programme whose channel is not a key of the programs dict is
skipped; otherwise its record is appended to that channel list, and a
raising strptime aborts the parse (outer except, returning {}). -/
def parseProgrammes (norm : String → String) (strpt : String → Option Nat) :
    List ProgrammeElem → List (String × List Program) →
    Option (List (String × List Program))
  | [], programs => some programs
  | pe :: rest, programs =>
      match programs.lookup pe.channel with
      | none => parseProgrammes norm strpt rest programs
      | some l =>
          match mkProgram norm strpt pe with
          | none => none
          | some prog =>
              parseProgrammes norm strpt rest
                (dictInsert pe.channel (l ++ [prog]) programs)

/-- The sort key comparison of _parse_xmltv line 232
(list.sort(key=lambda x: x[start_timestamp])). -/
def progLe (a b : Program) : Bool :=
  a.start_timestamp ≤ b.start_timestamp

/-- EPGManager._parse_xmltv (chumpstreams_epg.py lines 187-256) on an
already-parsed document tree: channel pass, programme pass, then each
channel list sorted by start_timestamp.  none models the except branches
returning {} (without updating the manager state). -/
def parseXmltv (doc : XmltvDoc) (norm : String → String)
    (strpt : String → Option Nat) : Option EPGData :=
  let cp := parseChannels doc.channels
  match parseProgrammes norm strpt doc.programmes cp.2 with
  | none => none
  | some programs =>
      some { channels := cp.1,
             programs := programs.map (fun kv => (kv.1, kv.2.mergeSort progLe)) }

/-- Sample program with the given timestamps (concrete test data). -/
def progAt (st sp : Nat) : Program :=
  { start := "", start_timestamp := st, stop := "", stop_timestamp := sp,
    title := none, description := none, category := none }

/-- Sample per-channel program list (concrete test data). -/
def progsW : List Program := [progAt 100 200, progAt 200 300, progAt 300 400]

/-- Sample channel (concrete test data). -/
def chanW : ChannelInfo :=
  { id := "cid1", name := some "UK BBC One HD", icon := none }

/-- Channel used by the no-match witness (concrete test data). -/
def chanB : ChannelInfo := { id := "cidB", name := some "CNN", icon := none }

/-- Manager with a single channel that matches nothing relevant (concrete
test data). -/
def mgrB : EPGManager :=
  { channels := [("cidB", chanB)], programs := [], channel_mappings := [],
    epg_cache := none, epg_cache_time := 0 }

/-- Manager holding a channel stored with a None display name (concrete
test data; _parse_xmltv line 199 stores findtext output, which is None
when the channel element has no display-name child). -/
def mgr4c : EPGManager :=
  { channels := [("cid0", { id := "cid0", name := none, icon := none })],
    programs := [], channel_mappings := [],
    epg_cache := none, epg_cache_time := 0 }

/-- Sample EPG payload (concrete test data). -/
def epgW : EPGData :=
  { channels := [("cid1", chanW)], programs := [("bbc1", progsW)] }

/-- Sample manager state (concrete test data). -/
def mgrW : EPGManager :=
  { channels := [("cid1", chanW)],
    programs := [("bbc1", progsW)],
    channel_mappings := [("Sky Sports", "sky1")],
    epg_cache := none, epg_cache_time := 0 }

/-- Manager with an empty in-memory cache (concrete test data). -/
def mgr5 : EPGManager :=
  { channels := [], programs := [], channel_mappings := [],
    epg_cache := none, epg_cache_time := 0 }

/-- Manager with a fresh in-memory cache (concrete test data). -/
def mgr5m : EPGManager :=
  { mgr5 with epg_cache := some epgW, epg_cache_time := 0 }

/-- Environment with a fresh cache file whose stored epg_data is the empty
dict (concrete test data; such a file is written after a failed parse,
chumpstreams_epg.py lines 176-179 with _parse_xmltv returning empty). -/
def env5 : EPGEnv :=
  { file := some { timestamp := 0, epg_data := none }, server_data := none }

/-- Sample favorite item with a truthy stream_id (concrete test data). -/
def item8 : FavItem :=
  { stream_id := some (PyVal.pint 5), vod_id := none, series_id := none,
    id := none, name := some (PyVal.pstr "Ch 5"), title := none,
    container_extension := none, stream_url := none }

/-- Favorites list that already contains item8 (concrete test data). -/
def favs8 : List Favorite := addFavorite [] item8 "live" none

/-- Sample XMLTV document: two declared channels, one programme for an
undeclared channel, and out-of-order programmes (concrete test data). -/
def doc9 : XmltvDoc :=
  { channels :=
      [{ id := "c1", display_name := some "One", icon := none },
       { id := "c2", display_name := some "Two", icon := none }],
    programmes :=
      [{ channel := "c1", start := "300", stop := "400", title := none,
         desc := none, category := none },
       { channel := "zz", start := "100", stop := "200", title := none,
         desc := none, category := none },
       { channel := "c1", start := "100", stop := "200", title := none,
         desc := none, category := none }] }

/-- Identity time normalizer (concrete test data for the norm parameter). -/
def norm9 : String → String := fun s => s

/-- Numeric time reader (concrete test data for the strpt parameter). -/
def strpt9 : String → Option Nat := fun s =>
  if s = "100" then some 100
  else if s = "200" then some 200
  else if s = "300" then some 300
  else if s = "400" then some 400
  else none

/-- Expected program records for doc9 (concrete test data). -/
def prog9a : Program :=
  { start := "100", start_timestamp := 100, stop := "200",
    stop_timestamp := 200, title := none, description := none,
    category := none }

/-- Expected program records for doc9 (concrete test data). -/
def prog9b : Program :=
  { start := "300", start_timestamp := 300, stop := "400",
    stop_timestamp := 400, title := none, description := none,
    category := none }

/-! Theorems. -/

/-- C1: for a fixed query time t, get_channel_epg returns exactly the
stored programs of the channel whose start_timestamp is at most
t + hours * 3600 and whose stop_timestamp is at least t, in stored order
(a sublist of the stored list); for an empty channel ID or an unknown
channel it returns the empty list. -/
theorem get_channel_epg_window (m : EPGManager) (cid : String)
    (t hours : Nat) :
    (cid = "" → getChannelEpg m cid t hours = []) ∧
    (m.programs.lookup cid = none → getChannelEpg m cid t hours = []) ∧
    (∀ l, cid ≠ "" → m.programs.lookup cid = some l →
      (getChannelEpg m cid t hours).Sublist l ∧
      ∀ p, p ∈ getChannelEpg m cid t hours ↔
        p ∈ l ∧ p.start_timestamp ≤ t + hours * 3600 ∧
          t ≤ p.stop_timestamp) := by
  refine ⟨fun h => by simp [getChannelEpg, h], ?_, ?_⟩
  · intro h
    by_cases hc : cid = "" <;> simp [getChannelEpg, h, hc]
  · intro l hc hl
    have heq : getChannelEpg m cid t hours =
        l.filter (fun prog =>
          prog.start_timestamp ≤ t + hours * 3600 && t ≤ prog.stop_timestamp) := by
      simp [getChannelEpg, hc, hl]
    rw [heq]
    refine ⟨List.filter_sublist l, fun p => ?_⟩
    simp [List.mem_filter, and_assoc]

/-- Witness for get_channel_epg_window at concrete inputs. -/
theorem get_channel_epg_window_witness :
    getChannelEpg mgrW "" 250 12 = [] ∧
    (progAt 300 400 ∈ getChannelEpg mgrW "bbc1" 250 12 ↔
      progAt 300 400 ∈ progsW ∧
        (progAt 300 400).start_timestamp ≤ 250 + 12 * 3600 ∧
        250 ≤ (progAt 300 400).stop_timestamp) :=
  ⟨(get_channel_epg_window mgrW "" 250 12).1 rfl,
   ((get_channel_epg_window mgrW "bbc1" 250 12).2.2 progsW (by decide)
     rfl).2 (progAt 300 400)⟩

/-- C2: for a fixed query time t, get_current_program returns a stored
program of the channel with start_timestamp ≤ t ≤ stop_timestamp, and
returns none exactly when the channel has no such currently airing
program (or the channel ID is empty or unknown). -/
theorem get_current_program_spec (m : EPGManager) (cid : String) (t : Nat) :
    (∀ p, getCurrentProgram m cid t = some p →
      ∃ l, m.programs.lookup cid = some l ∧ p ∈ l ∧
        p.start_timestamp ≤ t ∧ t ≤ p.stop_timestamp) ∧
    (getCurrentProgram m cid t = none ↔
      (cid = "" ∨ ∀ l, m.programs.lookup cid = some l →
        ∀ p ∈ l, ¬(p.start_timestamp ≤ t ∧ t ≤ p.stop_timestamp))) := by
  by_cases hc : cid = ""
  · constructor
    · intro p hp
      simp [getCurrentProgram, hc] at hp
    · simp [getCurrentProgram, hc]
  · have hdef : getCurrentProgram m cid t =
        (if getChannelEpg m cid t 1 = [] then none
         else (getChannelEpg m cid t 1).find? (fun prog =>
           prog.start_timestamp ≤ t && t ≤ prog.stop_timestamp)) := by
      simp [getCurrentProgram, hc]
    cases hl : m.programs.lookup cid with
    | none =>
        have hempty : getChannelEpg m cid t 1 = [] := by
          simp [getChannelEpg, hc, hl]
        constructor
        · intro p hp
          rw [hdef, hempty] at hp
          simp at hp
        · constructor
          · intro _
            right
            intro l hl2
            exact absurd hl2 (by simp)
          · intro _
            rw [hdef, hempty]
            simp
    | some l =>
        have heq : getChannelEpg m cid t 1 =
            l.filter (fun prog =>
              prog.start_timestamp ≤ t + 1 * 3600 && t ≤ prog.stop_timestamp) := by
          simp [getChannelEpg, hc, hl]
        have hmemP : ∀ p, p.start_timestamp ≤ t → t ≤ p.stop_timestamp →
            p ∈ l → p ∈ getChannelEpg m cid t 1 := by
          intro p h1 h2 hpl
          rw [heq, List.mem_filter]
          refine ⟨hpl, ?_⟩
          simp only [Bool.and_eq_true, decide_eq_true_eq]
          exact ⟨le_trans h1 (Nat.le_add_right t (1 * 3600)), h2⟩
        constructor
        · intro p hp
          rw [hdef] at hp
          split at hp
          · exact absurd hp (by simp)
          · have hmem := List.mem_of_find?_eq_some hp
            have hpred := List.find?_some hp
            simp only [Bool.and_eq_true, decide_eq_true_eq] at hpred
            rw [heq, List.mem_filter] at hmem
            exact ⟨l, rfl, hmem.1, hpred.1, hpred.2⟩
        · constructor
          · intro hnone
            right
            intro l2 hl2 p hpl2 hair
            injection hl2 with hl2
            subst hl2
            have hpP := hmemP p hair.1 hair.2 hpl2
            rw [hdef] at hnone
            split at hnone
            · rename_i hPnil
              rw [hPnil] at hpP
              exact absurd hpP (by simp)
            · rw [List.find?_eq_none] at hnone
              have := hnone p hpP
              simp only [Bool.and_eq_true, decide_eq_true_eq] at this
              exact this ⟨hair.1, hair.2⟩
          · intro hr
            rcases hr with hr | hr
            · exact absurd hr hc
            · rw [hdef]
              split
              · rfl
              · rw [List.find?_eq_none]
                intro p hpP
                rw [heq, List.mem_filter] at hpP
                have := hr l rfl p hpP.1
                simp only [Bool.and_eq_true, decide_eq_true_eq]
                intro hcontra
                exact this ⟨hcontra.1, hcontra.2⟩

/-- Witness for get_current_program_spec at concrete inputs. -/
theorem get_current_program_spec_witness :
    progAt 200 300 ∈ progsW ∧
    (progAt 200 300).start_timestamp ≤ 250 ∧
    250 ≤ (progAt 200 300).stop_timestamp := by
  obtain ⟨l, hl, hm, h1, h2⟩ :=
    (get_current_program_spec mgrW "bbc1" 250).1 (progAt 200 300) (by decide)
  have h0 : mgrW.programs.lookup "bbc1" = some progsW := rfl
  rw [h0] at hl
  rw [← Option.some_inj.mp hl] at hm
  exact ⟨hm, h1, h2⟩

/-- For a list sorted by start_timestamp, find? of the first program
starting after t returns one with minimal start among those starting
after t. -/
theorem find_first_gt_min (t : Nat) :
    ∀ (s : List Program),
      s.Pairwise (fun a b => a.start_timestamp ≤ b.start_timestamp) →
      ∀ p, s.find? (fun prog => t < prog.start_timestamp) = some p →
      ∀ q ∈ s, t < q.start_timestamp →
        p.start_timestamp ≤ q.start_timestamp := by
  intro s
  induction s with
  | nil =>
      intro _ p hp
      simp at hp
  | cons a rest ih =>
      intro hpw p hp q hq hqt
      by_cases ha : t < a.start_timestamp
      · rw [List.find?_cons_of_pos _ (by simpa using ha)] at hp
        injection hp with hp
        subst hp
        rcases List.mem_cons.mp hq with h | h
        · subst h; exact le_refl _
        · exact (List.pairwise_cons.mp hpw).1 q h
      · rw [List.find?_cons_of_neg _ (by simpa using ha)] at hp
        rcases List.mem_cons.mp hq with h | h
        · subst h; exact absurd hqt ha
        · exact ih (List.pairwise_cons.mp hpw).2 p hp q h hqt

/-- C3: for a fixed query time t and a channel whose stored list is
sorted ascending by start_timestamp, get_next_program returns a program
of the channel overlapping the window [t, t + 12h] that starts strictly
after t, with the smallest such start_timestamp, and returns none exactly
when no program overlapping the window starts after t. -/
theorem get_next_program_spec (m : EPGManager) (cid : String) (t : Nat)
    (l : List Program) (hcid : cid ≠ "")
    (hl : m.programs.lookup cid = some l)
    (hsorted : l.Pairwise (fun a b => a.start_timestamp ≤ b.start_timestamp)) :
    (∀ p, getNextProgram m cid t = some p →
      p ∈ l ∧ p.start_timestamp ≤ t + 12 * 3600 ∧ t ≤ p.stop_timestamp ∧
        t < p.start_timestamp ∧
        ∀ q ∈ l, q.start_timestamp ≤ t + 12 * 3600 → t ≤ q.stop_timestamp →
          t < q.start_timestamp → p.start_timestamp ≤ q.start_timestamp) ∧
    (getNextProgram m cid t = none ↔
      ∀ q ∈ l, q.start_timestamp ≤ t + 12 * 3600 → t ≤ q.stop_timestamp →
        ¬ t < q.start_timestamp) := by
  have heq : getChannelEpg m cid t 12 =
      l.filter (fun prog =>
        prog.start_timestamp ≤ t + 12 * 3600 && t ≤ prog.stop_timestamp) := by
    simp [getChannelEpg, hcid, hl]
  have hdef : getNextProgram m cid t =
      (if getChannelEpg m cid t 12 = [] then none
       else (getChannelEpg m cid t 12).find? (fun prog =>
         t < prog.start_timestamp)) := by
    simp [getNextProgram, hcid]
  have hPsorted : (getChannelEpg m cid t 12).Pairwise
      (fun a b => a.start_timestamp ≤ b.start_timestamp) := by
    rw [heq]
    exact List.Pairwise.sublist (List.filter_sublist l) hsorted
  have hmemP : ∀ q, q ∈ getChannelEpg m cid t 12 ↔
      q ∈ l ∧ q.start_timestamp ≤ t + 12 * 3600 ∧ t ≤ q.stop_timestamp := by
    intro q
    rw [heq, List.mem_filter]
    simp [and_assoc]
  constructor
  · intro p hp
    rw [hdef] at hp
    split at hp
    · exact absurd hp (by simp)
    · have hmem := List.mem_of_find?_eq_some hp
      have hpred := List.find?_some hp
      simp only [decide_eq_true_eq] at hpred
      have hm := (hmemP p).mp hmem
      refine ⟨hm.1, hm.2.1, hm.2.2, hpred, ?_⟩
      intro q hq hq1 hq2 hq3
      exact find_first_gt_min t (getChannelEpg m cid t 12) hPsorted p hp q
        ((hmemP q).mpr ⟨hq, hq1, hq2⟩) hq3
  · constructor
    · intro hnone q hq hq1 hq2 hq3
      rw [hdef] at hnone
      split at hnone
      · rename_i hnil
        have := (hmemP q).mpr ⟨hq, hq1, hq2⟩
        rw [hnil] at this
        exact absurd this (by simp)
      · rw [List.find?_eq_none] at hnone
        have := hnone q ((hmemP q).mpr ⟨hq, hq1, hq2⟩)
        simp only [decide_eq_true_eq] at this
        exact this hq3
    · intro hr
      rw [hdef]
      split
      · rfl
      · rw [List.find?_eq_none]
        intro q hqP
        have hm := (hmemP q).mp hqP
        simp only [decide_eq_true_eq]
        exact hr q hm.1 hm.2.1 hm.2.2

/-- Witness for get_next_program_spec at concrete inputs. -/
theorem get_next_program_spec_witness :
    progAt 300 400 ∈ progsW ∧ 250 < (progAt 300 400).start_timestamp := by
  have h := (get_next_program_spec mgrW "bbc1" 250 progsW (by decide) rfl
    (by decide)).1 (progAt 300 400) (by decide)
  exact ⟨h.1, h.2.2.2.1⟩
/-- Soundness of matchLoop: a normal return is the incoming best or a
channel id from a list entry whose stored (non-None) cleaned name equals
the cleaned stream name or contains/is contained in it with score above
one half. -/
theorem matchLoop_some_spec (s : List Char) :
    ∀ (cs : List (String × ChannelInfo)) (best : Option String) (q : ℚ)
      (r : Option String), matchLoop s cs best q = some r →
      r = best ∨ ∃ pr ∈ cs, ∃ nm, pr.2.name = some nm ∧ r = some pr.1 ∧
        (s = cleanName (lowerS nm.toList) ∨
         ((inStr s (cleanName (lowerS nm.toList)) ||
             inStr (cleanName (lowerS nm.toList)) s) = true ∧
          (1 : ℚ) / 2 < matchScore s (cleanName (lowerS nm.toList)))) := by
  intro cs
  induction cs with
  | nil =>
      intro best q r h
      left
      simp only [matchLoop] at h
      injection h with h
      exact h.symm
  | cons pr rest ih =>
      intro best q r h
      obtain ⟨cid2, ch⟩ := pr
      simp only [matchLoop] at h
      cases hnm : ch.name with
      | none =>
          rw [hnm] at h
          exact absurd h (by simp)
      | some nm =>
          rw [hnm] at h
          simp only [] at h
          by_cases h1 : s = cleanName (lowerS nm.toList)
          · rw [if_pos h1] at h
            injection h with h
            right
            exact ⟨(cid2, ch), List.mem_cons_self _ _, nm, hnm, h.symm,
              Or.inl h1⟩
          · rw [if_neg h1] at h
            by_cases h2 : (inStr s (cleanName (lowerS nm.toList)) ||
                inStr (cleanName (lowerS nm.toList)) s) = true
            · rw [if_pos h2] at h
              by_cases h3 : q < matchScore s (cleanName (lowerS nm.toList)) ∧
                  (1 : ℚ) / 2 < matchScore s (cleanName (lowerS nm.toList))
              · rw [if_pos h3] at h
                rcases ih _ _ _ h with h4 | h4
                · right
                  exact ⟨(cid2, ch), List.mem_cons_self _ _, nm, hnm, h4,
                    Or.inr ⟨h2, h3.2⟩⟩
                · obtain ⟨pr2, hpr2, hrest⟩ := h4
                  right
                  exact ⟨pr2, List.mem_cons_of_mem _ hpr2, hrest⟩
              · rw [if_neg h3] at h
                rcases ih _ _ _ h with h4 | h4
                · exact Or.inl h4
                · obtain ⟨pr2, hpr2, hrest⟩ := h4
                  right
                  exact ⟨pr2, List.mem_cons_of_mem _ hpr2, hrest⟩
            · rw [if_neg h2] at h
              rcases ih _ _ _ h with h4 | h4
              · exact Or.inl h4
              · obtain ⟨pr2, hpr2, hrest⟩ := h4
                right
                exact ⟨pr2, List.mem_cons_of_mem _ hpr2, hrest⟩

/-- Completeness of the empty case of matchLoop: when every entry has a
stored (non-None) name that neither matches by cleaned-name equality nor
scores above one half on a containment match, the loop started empty
terminates normally with best = None. -/
theorem matchLoop_none_spec (s : List Char) :
    ∀ (cs : List (String × ChannelInfo)),
      (∀ pr ∈ cs, ∃ nm, pr.2.name = some nm ∧
        ¬ s = cleanName (lowerS nm.toList) ∧
        ((inStr s (cleanName (lowerS nm.toList)) ||
            inStr (cleanName (lowerS nm.toList)) s) = true →
          matchScore s (cleanName (lowerS nm.toList)) ≤ (1 : ℚ) / 2)) →
      matchLoop s cs none 0 = some none := by
  intro cs
  induction cs with
  | nil =>
      intro _
      simp [matchLoop]
  | cons pr rest ih =>
      intro hall
      obtain ⟨cid2, ch⟩ := pr
      obtain ⟨nm, hnm, hne, hsc⟩ := hall (cid2, ch) (List.mem_cons_self _ _)
      have hx : ch.name = some nm := hnm
      simp only [matchLoop, hx]
      rw [if_neg hne]
      by_cases h2 : (inStr s (cleanName (lowerS nm.toList)) ||
          inStr (cleanName (lowerS nm.toList)) s) = true
      · rw [if_pos h2]
        have hscore := hsc h2
        have hcond : ¬((0 : ℚ) < matchScore s (cleanName (lowerS nm.toList)) ∧
            (1 : ℚ) / 2 < matchScore s (cleanName (lowerS nm.toList))) := by
          intro hcontra
          exact absurd hcontra.2 (not_lt.mpr hscore)
        rw [if_neg hcond]
        exact ih (fun pr2 hpr2 => hall pr2 (List.mem_cons_of_mem _ hpr2))
      · rw [if_neg h2]
        exact ih (fun pr2 hpr2 => hall pr2 (List.mem_cons_of_mem _ hpr2))

/-- Soundness of findExactMatch: a returned id belongs to an entry with a
stored truthy display name equal (case-insensitively) to the stream
name. -/
theorem findExactMatch_some (sname : String) :
    ∀ (cs : List (String × ChannelInfo)) (cid : String),
      findExactMatch sname cs = some cid →
      ∃ pr ∈ cs, pr.1 = cid ∧ ∃ nm, pr.2.name = some nm ∧ nm ≠ "" ∧
        lowerS nm.toList = lowerS sname.toList := by
  intro cs
  induction cs with
  | nil =>
      intro cid h
      simp [findExactMatch] at h
  | cons pr rest ih =>
      intro cid h
      obtain ⟨cid2, ch⟩ := pr
      simp only [findExactMatch] at h
      cases hnm : ch.name with
      | none =>
          rw [hnm] at h
          obtain ⟨pr2, hpr2, hrest⟩ := ih cid h
          exact ⟨pr2, List.mem_cons_of_mem _ hpr2, hrest⟩
      | some nm =>
          rw [hnm] at h
          simp only [] at h
          split at h
          · injection h with h
            subst h
            rename_i hcondpos
            exact ⟨(cid2, ch), List.mem_cons_self _ _, rfl, nm, hnm, hcondpos⟩
          · obtain ⟨pr2, hpr2, hrest⟩ := ih cid h
            exact ⟨pr2, List.mem_cons_of_mem _ hpr2, hrest⟩

/-- findExactMatch returns none exactly when no entry has a stored truthy
display name equal (case-insensitively) to the stream name. -/
theorem findExactMatch_none (sname : String) :
    ∀ (cs : List (String × ChannelInfo)),
      findExactMatch sname cs = none ↔
      ∀ pr ∈ cs, ∀ nm, pr.2.name = some nm →
        ¬(nm ≠ "" ∧ lowerS nm.toList = lowerS sname.toList) := by
  intro cs
  induction cs with
  | nil => simp [findExactMatch]
  | cons pr rest ih =>
      obtain ⟨cid2, ch⟩ := pr
      cases hnm : ch.name with
      | none =>
          simp only [findExactMatch, hnm]
          constructor
          · intro h pr2 hpr2 nm2 hnm2
            rcases List.mem_cons.mp hpr2 with hh | hh
            · subst hh
              have hx : ch.name = some nm2 := hnm2
              rw [hnm] at hx
              exact absurd hx (by simp)
            · exact ih.mp h pr2 hh nm2 hnm2
          · intro h
            exact ih.mpr (fun pr2 hpr2 nm2 hnm2 =>
              h pr2 (List.mem_cons_of_mem _ hpr2) nm2 hnm2)
      | some nm =>
          simp only [findExactMatch, hnm]
          constructor
          · intro h
            split at h
            · exact absurd h (by simp)
            · rename_i hcondneg
              intro pr2 hpr2 nm2 hnm2
              rcases List.mem_cons.mp hpr2 with hh | hh
              · subst hh
                have hx : ch.name = some nm2 := hnm2
                rw [hnm] at hx
                injection hx with hx
                subst hx
                exact hcondneg
              · exact ih.mp h pr2 hh nm2 hnm2
          · intro h
            rw [if_neg (h (cid2, ch) (List.mem_cons_self _ _) nm hnm)]
            exact ih.mpr (fun pr2 hpr2 nm2 hnm2 =>
              h pr2 (List.mem_cons_of_mem _ hpr2) nm2 hnm2)

/-- C4 counterexample: a reachable manager state stores a channel whose
display-name element was absent, so its name value is None
(chumpstreams_epg.py line 199).  For a non-empty stream name with no
user mapping and no exact match, the fuzzy loop evaluates
channel.get(name, defaulting only an absent key).lower() on that stored
None (line 403) and raises AttributeError (modelled as the outer none)
instead of returning None, refuting the claim that None is returned
when no tier applies. -/
theorem map_stream_to_epg_none_name_counterexample :
    ("BBC One" : String) ≠ "" ∧
    mgr4c.channel_mappings.lookup "BBC One" = none ∧
    mgr4c.channels =
      [("cid0", { id := "cid0", name := none, icon := none })] ∧
    mapStreamToEpg mgr4c "BBC One" = none := by decide

/-- C4 (amended): map_stream_to_epg resolves in priority order: the user
mapping first; otherwise the id of a channel whose stored display name
equals the stream name case-insensitively; otherwise an id is returned
only for a channel whose stored cleaned name equals the cleaned stream
name or contains/is contained in it with common-character score above
0.5; when every stored channel has a string (non-None) display name and
none of these applies, None is returned (also for an empty stream
name).  A channel stored with display-name None makes the fuzzy stage
raise AttributeError (outer none) when it is reached. -/
theorem map_stream_to_epg_spec (m : EPGManager) (sname : String) :
    (sname = "" → mapStreamToEpg m sname = some none) ∧
    (sname ≠ "" →
      (∀ mid, m.channel_mappings.lookup sname = some mid →
        mapStreamToEpg m sname = some (some mid)) ∧
      (m.channel_mappings.lookup sname = none →
        ((∃ pr ∈ m.channels, ∃ nm, pr.2.name = some nm ∧ nm ≠ "" ∧
            lowerS nm.toList = lowerS sname.toList) →
          ∃ pr ∈ m.channels, ∃ nm, pr.2.name = some nm ∧ nm ≠ "" ∧
            lowerS nm.toList = lowerS sname.toList ∧
            mapStreamToEpg m sname = some (some pr.1)) ∧
        ((∀ pr ∈ m.channels, ∀ nm, pr.2.name = some nm →
            ¬(nm ≠ "" ∧ lowerS nm.toList = lowerS sname.toList)) →
          (∀ cid, mapStreamToEpg m sname = some (some cid) →
            ∃ pr ∈ m.channels, pr.1 = cid ∧ ∃ nm, pr.2.name = some nm ∧
              (cleanName (lowerS sname.toList) =
                 cleanName (lowerS nm.toList) ∨
               ((inStr (cleanName (lowerS sname.toList))
                   (cleanName (lowerS nm.toList)) ||
                 inStr (cleanName (lowerS nm.toList))
                   (cleanName (lowerS sname.toList))) = true ∧
                (1 : ℚ) / 2 <
                  matchScore (cleanName (lowerS sname.toList))
                    (cleanName (lowerS nm.toList))))) ∧
          ((∀ pr ∈ m.channels, ∃ nm, pr.2.name = some nm ∧
              ¬ cleanName (lowerS sname.toList) =
                  cleanName (lowerS nm.toList) ∧
              ((inStr (cleanName (lowerS sname.toList))
                  (cleanName (lowerS nm.toList)) ||
                inStr (cleanName (lowerS nm.toList))
                  (cleanName (lowerS sname.toList))) = true →
                matchScore (cleanName (lowerS sname.toList))
                  (cleanName (lowerS nm.toList)) ≤ (1 : ℚ) / 2)) →
            mapStreamToEpg m sname = some none)))) := by
  by_cases hs : sname = ""
  · exact ⟨fun _ => by simp [mapStreamToEpg, hs], fun h => absurd hs h⟩
  · refine ⟨fun h => absurd h hs, fun _ => ⟨?_, ?_⟩⟩
    · intro mid hmid
      simp [mapStreamToEpg, hs, hmid]
    · intro hnomap
      constructor
      · intro hex
        cases hfe : findExactMatch sname m.channels with
        | none =>
            exfalso
            obtain ⟨pr, hpr, nm, hnm, hname⟩ := hex
            exact (findExactMatch_none sname m.channels).mp hfe pr hpr nm
              hnm hname
        | some cid =>
            obtain ⟨pr, hpr, hpr1, nm, hnm, hprname, hprlow⟩ :=
              findExactMatch_some sname m.channels cid hfe
            refine ⟨pr, hpr, nm, hnm, hprname, hprlow, ?_⟩
            rw [hpr1]
            simp [mapStreamToEpg, hs, hnomap, hfe]
      · intro hnoexact
        have hfe : findExactMatch sname m.channels = none :=
          (findExactMatch_none sname m.channels).mpr hnoexact
        constructor
        · intro cid hcid
          rcases hml : matchLoop (cleanName (lowerS sname.toList))
              m.channels none 0 with _ | best
          · rw [mapStreamToEpg] at hcid
            simp only [if_neg hs, hnomap, hfe, hml] at hcid
            exact absurd hcid (by simp)
          · rcases matchLoop_some_spec _ m.channels none 0 best hml with
              hb | hb
            · subst hb
              rw [mapStreamToEpg] at hcid
              simp only [if_neg hs, hnomap, hfe, hml] at hcid
              exact absurd hcid (by simp)
            · obtain ⟨pr, hpr, nm, hnm, hbid, hcond⟩ := hb
              subst hbid
              rw [mapStreamToEpg] at hcid
              simp only [if_neg hs, hnomap, hfe, hml] at hcid
              by_cases hempty : pr.1 = ""
              · rw [if_pos hempty] at hcid
                simp at hcid
              · rw [if_neg hempty] at hcid
                have hcid2 : pr.1 = cid := by
                  injection hcid with h1
                  injection h1 with h1
                exact ⟨pr, hpr, hcid2, nm, hnm, hcond⟩
        · intro hallfail
          have hml := matchLoop_none_spec (cleanName (lowerS sname.toList))
            m.channels hallfail
          rw [mapStreamToEpg]
          simp only [if_neg hs, hnomap, hfe, hml]

/-- Witness for map_stream_to_epg_spec at concrete inputs: the user
mapping tier, and the None return when no tier applies. -/
theorem map_stream_to_epg_spec_witness :
    mapStreamToEpg mgrW "Sky Sports" = some (some "sky1") ∧
    mapStreamToEpg mgrB "Zebra" = some none := by
  constructor
  · exact ((map_stream_to_epg_spec mgrW "Sky Sports").2 (by decide)).1
      "sky1" rfl
  · exact ((((map_stream_to_epg_spec mgrB "Zebra").2 (by decide)).2
      rfl).2 (by
        intro pr hpr nm hnm
        have hpr2 : pr = ("cidB", chanB) := by
          simpa [mgrB] using hpr
        subst hpr2
        have hx : some "CNN" = some nm := hnm
        injection hx with hx
        subst hx
        decide)).2 (by
        intro pr hpr
        have hpr2 : pr = ("cidB", chanB) := by
          simpa [mgrB] using hpr
        subst hpr2
        exact ⟨"CNN", rfl, by decide, fun hc => absurd hc (by decide)⟩)

/-- C5 counterexample: with an empty in-memory cache and an existing,
fresh cache file (age 0 < 86400) whose stored epg_data is the empty
dict, fetch_epg_data does not return the file data: it falls through to
a server fetch, contrary to the claim that a fresh existing cache file is
always served. -/
theorem fetch_epg_data_fresh_file_counterexample :
    mgr5.epg_cache = none ∧
    env5.file = some { timestamp := 0, epg_data := none } ∧
    (0 : ℚ) - 0 < 86400 ∧
    (fetchEpgData mgr5 env5 0 false).1 = FetchSource.server := by
  refine ⟨rfl, rfl, by norm_num, ?_⟩
  norm_num [fetchEpgData, loadEpgFromCacheFile, env5, mgr5]

/-- C5 (amended): force_refresh always fetches from the server; otherwise
the non-empty in-memory cache is returned whenever t - epg_cache_time <
3600, without touching file or network; otherwise the file data is
returned whenever the cache file exists, is fresh (t - timestamp < 86400)
and its stored epg_data is non-empty; only otherwise is the server
fetched. -/
theorem fetch_epg_data_tiers (m : EPGManager) (env : EPGEnv) (t : ℚ) :
    fetchEpgData m env t true = (FetchSource.server, env.server_data) ∧
    (m.epg_cache.isSome = true → t - m.epg_cache_time < 3600 →
      fetchEpgData m env t false = (FetchSource.memory, m.epg_cache)) ∧
    (¬(m.epg_cache.isSome = true ∧ t - m.epg_cache_time < 3600) →
      ∀ fc d, env.file = some fc → t - fc.timestamp < 86400 →
        fc.epg_data = some d →
        fetchEpgData m env t false = (FetchSource.fileCache, some d)) ∧
    (¬(m.epg_cache.isSome = true ∧ t - m.epg_cache_time < 3600) →
      ¬(∃ fc d, env.file = some fc ∧ t - fc.timestamp < 86400 ∧
          fc.epg_data = some d) →
      fetchEpgData m env t false = (FetchSource.server, env.server_data)) := by
  refine ⟨by simp [fetchEpgData], ?_, ?_, ?_⟩
  · intro h1 h2
    simp [fetchEpgData, h1, h2]
  · intro hmem fc d hfc hfresh hdata
    simp [fetchEpgData, hmem, loadEpgFromCacheFile, hfc, hfresh, hdata]
  · intro hmem hnofile
    cases hfc : env.file with
    | none => simp [fetchEpgData, hmem, loadEpgFromCacheFile, hfc]
    | some fc =>
        by_cases hfresh : t - fc.timestamp < 86400
        · cases hdata : fc.epg_data with
          | none =>
              simp [fetchEpgData, hmem, loadEpgFromCacheFile, hfc, hfresh,
                hdata]
          | some d =>
              exact absurd ⟨fc, d, hfc, hfresh, hdata⟩ hnofile
        · simp [fetchEpgData, hmem, loadEpgFromCacheFile, hfc, hfresh]

/-- Witness for fetch_epg_data_tiers at concrete inputs: a fresh non-empty
in-memory cache is served from memory. -/
theorem fetch_epg_data_tiers_witness :
    fetchEpgData mgr5m env5 0 false = (FetchSource.memory, some epgW) := by
  have hfresh : (0 : ℚ) - mgr5m.epg_cache_time < 3600 := by
    show (0 : ℚ) - 0 < 3600
    norm_num
  exact (fetch_epg_data_tiers mgr5m env5 0).2.1 rfl hfresh

/-- C6: the recorded request time produced by _wait_for_rate_limit is at
least request_delay (0.5 s) after the previously recorded one: when less
than 0.5 s elapsed the function sleeps for the difference, and the
post-sleep clock reading (c1 + sleep + overshoot, overshoot ≥ 0) becomes
the new last_request_time. -/
theorem rate_limit_min_gap (last c1 d : ℚ) (hd : 0 ≤ d) :
    requestDelay ≤ waitForRateLimit last c1 d - last := by
  unfold waitForRateLimit rateLimitSleep requestDelay
  split
  · linarith
  · rename_i h
    rw [not_lt] at h
    linarith

/-- Witness for rate_limit_min_gap at concrete inputs. -/
theorem rate_limit_min_gap_witness :
    requestDelay ≤ waitForRateLimit 0 0 0 - 0 :=
  rate_limit_min_gap 0 0 0 (le_refl 0)

/-- C7: when not logged in every playback-URL builder returns none; when
logged in the URLs have the exact shape protocol://host:port followed by
/live/u/p/id.ts, /movie/u/p/id.ext and /series/u/p/id.ext, with ext the
given extension or mp4 when none (or an empty one, Python or) is given,
and port 443 for HTTPS, 80 for HTTP as fixed at construction. -/
theorem stream_url_shapes (host : String) (https : Bool) (u p sid : String)
    (ext : Option String) (b : Bool) :
    (b = false →
      getLiveStreamUrl { mkApiClient host https u p with logged_in := b }
          sid = none ∧
      getVodStreamUrl { mkApiClient host https u p with logged_in := b }
          sid ext = none ∧
      getSeriesStreamUrl { mkApiClient host https u p with logged_in := b }
          sid ext = none) ∧
    (b = true →
      getLiveStreamUrl { mkApiClient host https u p with logged_in := b }
          sid =
        some ((if https then "https" else "http") ++ "://" ++ host ++ ":" ++
          (if https then "443" else "80") ++ "/live/" ++ u ++ "/" ++ p ++
          "/" ++ sid ++ ".ts") ∧
      getVodStreamUrl { mkApiClient host https u p with logged_in := b }
          sid ext =
        some ((if https then "https" else "http") ++ "://" ++ host ++ ":" ++
          (if https then "443" else "80") ++ "/movie/" ++ u ++ "/" ++ p ++
          "/" ++ sid ++ "." ++ extOrMp4 ext) ∧
      getSeriesStreamUrl { mkApiClient host https u p with logged_in := b }
          sid ext =
        some ((if https then "https" else "http") ++ "://" ++ host ++ ":" ++
          (if https then "443" else "80") ++ "/series/" ++ u ++ "/" ++ p ++
          "/" ++ sid ++ "." ++ extOrMp4 ext)) := by
  constructor
  · intro hb
    subst hb
    exact ⟨rfl, rfl, rfl⟩
  · intro hb
    subst hb
    cases https <;> exact ⟨rfl, rfl, rfl⟩

/-- Witness for stream_url_shapes at concrete inputs. -/
theorem stream_url_shapes_witness :
    getLiveStreamUrl
      { mkApiClient "example.com" true "u1" "p1" with logged_in := true }
      "77" = some "https://example.com:443/live/u1/p1/77.ts" := by
  have h := (stream_url_shapes "example.com" true "u1" "p1" "77" none
    true).2 rfl
  exact h.1

/-- A favorites list extended with a matching live/vod entry is found by
the live/vod index search. -/
theorem findLiveVodIdx_append (ct : String) (iid : PyVal) (fav : Favorite)
    (h1 : fav.ftype.getD PyVal.pnone = PyVal.pstr ct)
    (h2 : (liveVodIdOf (fav.item.getD emptyFavItem)).truthy = true)
    (h3 : liveVodIdOf (fav.item.getD emptyFavItem) = iid) :
    ∀ (l : List Favorite) (i : Nat), 0 ≤ findLiveVodIdx ct iid (l ++ [fav]) i := by
  intro l
  induction l with
  | nil =>
      intro i
      simp only [List.nil_append, findLiveVodIdx]
      rw [if_neg (by simp [h1]), if_pos ⟨h2, h3⟩]
      exact Int.natCast_nonneg i
  | cons g rest ih =>
      intro i
      simp only [List.cons_append, findLiveVodIdx]
      split
      · exact ih (i + 1)
      · split
        · exact Int.natCast_nonneg i
        · exact ih (i + 1)

/-- A favorites list extended with a matching series entry is found by the
series index search. -/
theorem findSeriesIdx_append (iid : PyVal) (fav : Favorite)
    (h1 : fav.ftype.getD PyVal.pnone = PyVal.pstr "series")
    (h2 : ((fav.item.getD emptyFavItem).series_id.getD PyVal.pnone).truthy = true)
    (h3 : (fav.item.getD emptyFavItem).series_id.getD PyVal.pnone = iid) :
    ∀ (l : List Favorite) (i : Nat), 0 ≤ findSeriesIdx iid (l ++ [fav]) i := by
  intro l
  induction l with
  | nil =>
      intro i
      simp only [List.nil_append, findSeriesIdx]
      rw [if_neg (by simp [h1]), if_pos ⟨h2, h3⟩]
      exact Int.natCast_nonneg i
  | cons g rest ih =>
      intro i
      simp only [List.cons_append, findSeriesIdx]
      split
      · exact ih (i + 1)
      · split
        · exact Int.natCast_nonneg i
        · exact ih (i + 1)

/-- For live/vod content with a truthy id the index search reduces to the
live/vod loop. -/
theorem findFavoriteIndex_livevod (favs : List Favorite) (it : FavItem)
    (ct : String) (hlv : ct = "live" ∨ ct = "vod")
    (htr : (liveVodIdOf it).truthy = true) :
    findFavoriteIndex favs it ct = findLiveVodIdx ct (liveVodIdOf it) favs 0 := by
  simp only [findFavoriteIndex]
  rw [if_pos hlv, if_neg (by simp [htr])]

/-- For series content with a truthy series_id the index search reduces to
the series loop. -/
theorem findFavoriteIndex_series (favs : List Favorite) (it : FavItem)
    (htr : (it.series_id.getD PyVal.pnone).truthy = true) :
    findFavoriteIndex favs it "series" =
      findSeriesIdx (it.series_id.getD PyVal.pnone) favs 0 := by
  simp [findFavoriteIndex, htr]

/-- C8: add_favorite is idempotent for identifiable items: when the item
is already a favorite of that content type, the favorites list is left
unchanged (no duplicate appended), and after any add_favorite call
is_favorite holds. -/
theorem add_favorite_idempotent (favs : List Favorite) (item : FavItem)
    (ct : String) (su : Option String)
    (hct : ct = "live" ∨ ct = "vod" ∨ ct = "series")
    (hid : (if ct = "series" then item.series_id.getD PyVal.pnone
            else liveVodIdOf item).truthy = true) :
    (isFavorite favs item ct = true → addFavorite favs item ct su = favs) ∧
    isFavorite (addFavorite favs item ct su) item ct = true := by
  rcases hct with hct | hct | hct
  all_goals subst hct
  case inl =>
    rw [if_neg (by decide)] at hid
    have hfi := findFavoriteIndex_livevod favs item "live" (Or.inl rfl) hid
    cases su with
    | none =>
        have hadd : addFavorite favs item "live" none =
            (if 0 ≤ findFavoriteIndex favs item "live" then favs
             else favs ++ [{ ftype := some (PyVal.pstr "live"),
                             label := some (favLabel item),
                             item := some item,
                             stream_url := item.stream_url }]) := rfl
        constructor
        · intro hisf
          simp only [isFavorite, decide_eq_true_eq] at hisf
          rw [hadd, if_pos hisf]
        · by_cases hin : 0 ≤ findFavoriteIndex favs item "live"
          · rw [hadd, if_pos hin]
            simp only [isFavorite, decide_eq_true_eq]
            exact hin
          · rw [hadd, if_neg hin]
            simp only [isFavorite, decide_eq_true_eq]
            rw [findFavoriteIndex_livevod _ _ _ (Or.inl rfl) hid]
            apply findLiveVodIdx_append
            · rfl
            · exact hid
            · rfl
    | some u =>
        have hadd : addFavorite favs item "live" (some u) =
            (if 0 ≤ findFavoriteIndex favs item "live" then favs
             else favs ++ [{ ftype := some (PyVal.pstr "live"),
                             label := some (favLabel
                               { item with stream_url := some (PyVal.pstr u) }),
                             item := some
                               { item with stream_url := some (PyVal.pstr u) },
                             stream_url := some (PyVal.pstr u) }]) := rfl
        constructor
        · intro hisf
          simp only [isFavorite, decide_eq_true_eq] at hisf
          rw [hadd, if_pos hisf]
        · by_cases hin : 0 ≤ findFavoriteIndex favs item "live"
          · rw [hadd, if_pos hin]
            simp only [isFavorite, decide_eq_true_eq]
            exact hin
          · rw [hadd, if_neg hin]
            simp only [isFavorite, decide_eq_true_eq]
            rw [findFavoriteIndex_livevod _ _ _ (Or.inl rfl) hid]
            apply findLiveVodIdx_append
            · rfl
            · exact hid
            · rfl
  case inr.inl =>
    rw [if_neg (by decide)] at hid
    cases su with
    | none =>
        have hadd : addFavorite favs item "vod" none =
            (if 0 ≤ findFavoriteIndex favs item "vod" then favs
             else favs ++ [{ ftype := some (PyVal.pstr "vod"),
                             label := some (favLabel item),
                             item := some item,
                             stream_url := item.stream_url }]) := rfl
        constructor
        · intro hisf
          simp only [isFavorite, decide_eq_true_eq] at hisf
          rw [hadd, if_pos hisf]
        · by_cases hin : 0 ≤ findFavoriteIndex favs item "vod"
          · rw [hadd, if_pos hin]
            simp only [isFavorite, decide_eq_true_eq]
            exact hin
          · rw [hadd, if_neg hin]
            simp only [isFavorite, decide_eq_true_eq]
            rw [findFavoriteIndex_livevod _ _ _ (Or.inr rfl) hid]
            apply findLiveVodIdx_append
            · rfl
            · exact hid
            · rfl
    | some u =>
        have hadd : addFavorite favs item "vod" (some u) =
            (if 0 ≤ findFavoriteIndex favs item "vod" then favs
             else favs ++ [{ ftype := some (PyVal.pstr "vod"),
                             label := some (favLabel
                               { item with stream_url := some (PyVal.pstr u) }),
                             item := some
                               { item with stream_url := some (PyVal.pstr u) },
                             stream_url := some (PyVal.pstr u) }]) := rfl
        constructor
        · intro hisf
          simp only [isFavorite, decide_eq_true_eq] at hisf
          rw [hadd, if_pos hisf]
        · by_cases hin : 0 ≤ findFavoriteIndex favs item "vod"
          · rw [hadd, if_pos hin]
            simp only [isFavorite, decide_eq_true_eq]
            exact hin
          · rw [hadd, if_neg hin]
            simp only [isFavorite, decide_eq_true_eq]
            rw [findFavoriteIndex_livevod _ _ _ (Or.inr rfl) hid]
            apply findLiveVodIdx_append
            · rfl
            · exact hid
            · rfl
  case inr.inr =>
    rw [if_pos rfl] at hid
    cases su with
    | none =>
        have hadd : addFavorite favs item "series" none =
            (if 0 ≤ findFavoriteIndex favs item "series" then favs
             else favs ++ [{ ftype := some (PyVal.pstr "series"),
                             label := some (favLabel item),
                             item := some item,
                             stream_url := item.stream_url }]) := rfl
        constructor
        · intro hisf
          simp only [isFavorite, decide_eq_true_eq] at hisf
          rw [hadd, if_pos hisf]
        · by_cases hin : 0 ≤ findFavoriteIndex favs item "series"
          · rw [hadd, if_pos hin]
            simp only [isFavorite, decide_eq_true_eq]
            exact hin
          · rw [hadd, if_neg hin]
            simp only [isFavorite, decide_eq_true_eq]
            rw [findFavoriteIndex_series _ _ hid]
            apply findSeriesIdx_append
            · rfl
            · exact hid
            · rfl
    | some u =>
        have hadd : addFavorite favs item "series" (some u) =
            (if 0 ≤ findFavoriteIndex favs item "series" then favs
             else favs ++ [{ ftype := some (PyVal.pstr "series"),
                             label := some (favLabel
                               { item with stream_url := some (PyVal.pstr u) }),
                             item := some
                               { item with stream_url := some (PyVal.pstr u) },
                             stream_url := some (PyVal.pstr u) }]) := rfl
        constructor
        · intro hisf
          simp only [isFavorite, decide_eq_true_eq] at hisf
          rw [hadd, if_pos hisf]
        · by_cases hin : 0 ≤ findFavoriteIndex favs item "series"
          · rw [hadd, if_pos hin]
            simp only [isFavorite, decide_eq_true_eq]
            exact hin
          · rw [hadd, if_neg hin]
            simp only [isFavorite, decide_eq_true_eq]
            rw [findFavoriteIndex_series _ _ hid]
            apply findSeriesIdx_append
            · rfl
            · exact hid
            · rfl

/-- Witness for add_favorite_idempotent at concrete inputs. -/
theorem add_favorite_idempotent_witness :
    isFavorite (addFavorite [] item8 "live" none) item8 "live" = true ∧
    addFavorite favs8 item8 "live" none = favs8 := by
  constructor
  · exact (add_favorite_idempotent [] item8 "live" none (Or.inl rfl)
      (by decide)).2
  · exact (add_favorite_idempotent favs8 item8 "live" none (Or.inl rfl)
      (by decide)).1 (by decide)

/-- C10: remove_favorite_by_index with an out-of-range index returns
False and changes neither the favorites list nor the config file (no
save); with a valid index it removes exactly the entry at that position,
saves, and returns True. -/
theorem remove_favorite_by_index_spec (favs : List Favorite) (idx : Int) :
    ((idx < 0 ∨ (favs.length : Int) ≤ idx) →
      removeFavoriteByIndex favs idx = (false, favs, false)) ∧
    (0 ≤ idx → idx < (favs.length : Int) →
      removeFavoriteByIndex favs idx =
        (true, favs.take idx.toNat ++ favs.drop (idx.toNat + 1), true)) := by
  constructor
  · intro h
    simp only [removeFavoriteByIndex]
    rw [if_pos h]
  · intro h1 h2
    simp only [removeFavoriteByIndex]
    rw [if_neg (not_or.mpr ⟨not_lt.mpr h1, not_le.mpr h2⟩),
      List.eraseIdx_eq_take_drop_succ]

/-- Witness for remove_favorite_by_index_spec at concrete inputs. -/
theorem remove_favorite_by_index_spec_witness :
    removeFavoriteByIndex favs8 5 = (false, favs8, false) ∧
    removeFavoriteByIndex favs8 0 =
      (true, favs8.take ((0 : Int).toNat) ++ favs8.drop ((0 : Int).toNat + 1),
        true) :=
  ⟨(remove_favorite_by_index_spec favs8 5).1 (Or.inr (by decide)),
   (remove_favorite_by_index_spec favs8 0).2 (by decide) (by decide)⟩

/-- Lookup after a Python dict insertion. -/
theorem dictInsert_lookup {α : Type} (k k2 : String) (v : α) :
    ∀ (l : List (String × α)),
      (dictInsert k v l).lookup k2 = if k2 = k then some v else l.lookup k2 := by
  intro l
  induction l with
  | nil =>
      by_cases h : k2 = k
      · subst h
        simp [dictInsert]
      · simp [dictInsert, List.lookup_cons, beq_eq_false_iff_ne.mpr h, h]
  | cons pr rest ih =>
      obtain ⟨k3, v3⟩ := pr
      by_cases h3 : k3 = k
      · subst h3
        by_cases h : k2 = k3
        · subst h
          simp [dictInsert]
        · simp [dictInsert, List.lookup_cons, beq_eq_false_iff_ne.mpr h, h]
      · by_cases h : k2 = k3
        · subst h
          simp [dictInsert, h3, List.lookup_cons]
        · simp [dictInsert, h3, List.lookup_cons,
            beq_eq_false_iff_ne.mpr h, h, ih]

/-- The channel pass declares exactly the channel element ids as program
keys. -/
theorem parseChannels_foldl_isSome (cid : String) :
    ∀ (elems : List ChannelElem)
      (acc : List (String × ChannelInfo) × List (String × List Program)),
      ((elems.foldl
          (fun acc ce =>
            (dictInsert ce.id
              { id := ce.id, name := ce.display_name, icon := ce.icon } acc.1,
             dictInsert ce.id [] acc.2))
          acc).2.lookup cid).isSome = true ↔
        (∃ ce ∈ elems, ce.id = cid) ∨ ((acc.2.lookup cid).isSome = true) := by
  intro elems
  induction elems with
  | nil =>
      intro acc
      simp
  | cons ce rest ih =>
      intro acc
      rw [List.foldl_cons, ih, dictInsert_lookup]
      by_cases h : cid = ce.id
      · constructor
        · intro _
          exact Or.inl ⟨ce, List.mem_cons_self _ _, h.symm⟩
        · intro _
          right
          simp [h]
      · simp only [if_neg h]
        constructor
        · rintro (hr | hr)
          · obtain ⟨ce2, hce2, hid⟩ := hr
            exact Or.inl ⟨ce2, List.mem_cons_of_mem _ hce2, hid⟩
          · exact Or.inr hr
        · rintro (hr | hr)
          · obtain ⟨ce2, hce2, hid⟩ := hr
            rcases List.mem_cons.mp hce2 with hh | hh
            · subst hh
              exact absurd hid.symm h
            · exact Or.inl ⟨ce2, hh, hid⟩
          · exact Or.inr hr

/-- The program keys of parseChannels are exactly the declared channel
ids. -/
theorem parseChannels_isSome (cid : String) (elems : List ChannelElem) :
    (((parseChannels elems).2.lookup cid).isSome = true) ↔
      ∃ ce ∈ elems, ce.id = cid := by
  have h := parseChannels_foldl_isSome cid elems ([], [])
  simpa [parseChannels] using h

/-- The programme pass preserves the key set of the programs dict. -/
theorem parseProgrammes_isSome (norm : String → String)
    (strpt : String → Option Nat) (cid : String) :
    ∀ (pes : List ProgrammeElem) (acc res : List (String × List Program)),
      parseProgrammes norm strpt pes acc = some res →
      ((res.lookup cid).isSome = true ↔ (acc.lookup cid).isSome = true) := by
  intro pes
  induction pes with
  | nil =>
      intro acc res h
      simp only [parseProgrammes] at h
      injection h with h
      subst h
      exact Iff.rfl
  | cons pe rest ih =>
      intro acc res h
      simp only [parseProgrammes] at h
      split at h
      · exact ih acc res h
      · rename_i l hlk
        split at h
        · exact absurd h (by simp)
        · rename_i prog hmk
          have hres := ih _ res h
          rw [hres, dictInsert_lookup]
          by_cases hc : cid = pe.channel
          · subst hc
            simp [hlk]
          · simp [hc]

/-- Lookup of the per-channel sorting pass of parseXmltv. -/
theorem lookup_map_sort (cid : String) :
    ∀ (l : List (String × List Program)),
      (l.map (fun kv => (kv.1, kv.2.mergeSort progLe))).lookup cid =
        (l.lookup cid).map (fun v => v.mergeSort progLe) := by
  intro l
  induction l with
  | nil => simp
  | cons pr rest ih =>
      obtain ⟨k, v⟩ := pr
      by_cases h : cid = k
      · subst h
        simp
      · simp [List.lookup_cons, beq_eq_false_iff_ne.mpr h, ih]

/-- mergeSort by start_timestamp produces a list sorted nondecreasingly by
start_timestamp. -/
theorem progLe_sorted (l : List Program) :
    (l.mergeSort progLe).Pairwise
      (fun a b => a.start_timestamp ≤ b.start_timestamp) := by
  have htrans : ∀ a b c : Program, progLe a b = true → progLe b c = true →
      progLe a c = true := by
    intro a b c hab hbc
    simp only [progLe, decide_eq_true_eq] at hab hbc ⊢
    exact le_trans hab hbc
  have htotal : ∀ a b : Program, (progLe a b || progLe b a) = true := by
    intro a b
    simp only [progLe, Bool.or_eq_true, decide_eq_true_eq]
    exact Nat.le_total _ _
  have h := List.sorted_mergeSort htrans htotal l
  refine h.imp ?_
  intro a b hab
  simpa [progLe] using hab

/-- C9: after a successful _parse_xmltv every per-channel program list is
sorted nondecreasingly by start_timestamp, every program key is a
declared channel, and programmes naming an undeclared channel are
silently dropped (no key is created for them). -/
theorem parse_xmltv_invariants (doc : XmltvDoc) (norm : String → String)
    (strpt : String → Option Nat) (d : EPGData)
    (hparse : parseXmltv doc norm strpt = some d) :
    (∀ cid l, d.programs.lookup cid = some l →
      l.Pairwise (fun a b => a.start_timestamp ≤ b.start_timestamp)) ∧
    (∀ cid, (d.programs.lookup cid).isSome = true →
      ∃ ce ∈ doc.channels, ce.id = cid) ∧
    (∀ pe ∈ doc.programmes, (∀ ce ∈ doc.channels, ce.id ≠ pe.channel) →
      d.programs.lookup pe.channel = none) := by
  simp only [parseXmltv] at hparse
  split at hparse
  · exact absurd hparse (by simp)
  · rename_i programs hpp
    injection hparse with hparse
    subst hparse
    have hkeys : ∀ cid, ((programs.lookup cid).isSome = true ↔
        ∃ ce ∈ doc.channels, ce.id = cid) := by
      intro cid
      rw [parseProgrammes_isSome norm strpt cid doc.programmes
        (parseChannels doc.channels).2 programs hpp]
      exact parseChannels_isSome cid doc.channels
    refine ⟨?_, ?_, ?_⟩
    · intro cid l hl
      simp only at hl
      rw [lookup_map_sort] at hl
      obtain ⟨v, _, hv2⟩ := Option.map_eq_some'.mp hl
      rw [← hv2]
      exact progLe_sorted v
    · intro cid h
      simp only at h
      rw [lookup_map_sort] at h
      rcases hx : List.lookup cid programs with _ | v
      · rw [hx] at h
        simp at h
      · exact (hkeys cid).mp (by simp [hx])
    · intro pe hpe hall
      simp only
      rw [lookup_map_sort]
      cases hlp : List.lookup pe.channel programs with
      | none => rfl
      | some v =>
          exfalso
          obtain ⟨ce, hce, hcid⟩ := (hkeys pe.channel).mp (by simp [hlp])
          exact hall ce hce hcid

/-- Witness for parse_xmltv_invariants at concrete inputs. -/
theorem parse_xmltv_invariants_witness :
    parseXmltv doc9 norm9 strpt9 =
      some { channels := [("c1", { id := "c1", name := some "One", icon := none }),
                          ("c2", { id := "c2", name := some "Two", icon := none })],
             programs := [("c1", [prog9a, prog9b]), ("c2", [])] } ∧
    List.Pairwise (fun a b : Program =>
      a.start_timestamp ≤ b.start_timestamp) [prog9a, prog9b] := by
  have h1 : parseProgrammes norm9 strpt9 doc9.programmes
      (parseChannels doc9.channels).2 =
      some [("c1", [prog9b, prog9a]), ("c2", [])] := rfl
  have h2 : parseXmltv doc9 norm9 strpt9 =
      some { channels := [("c1", { id := "c1", name := some "One", icon := none }),
                          ("c2", { id := "c2", name := some "Two", icon := none })],
             programs := [("c1", [prog9a, prog9b]), ("c2", [])] } := by
    simp only [parseXmltv, h1]
    simp [parseChannels, dictInsert, doc9, List.mergeSort, progLe,
      prog9a, prog9b]
  refine ⟨h2, ?_⟩
  exact (parse_xmltv_invariants doc9 norm9 strpt9 _ h2).1 "c1"
    [prog9a, prog9b] rfl

end ChumpStreams
